import Mathlib

/-!
Verification development for the kripto-api price gateway (`app.py`).

The embedding models the request-handling core of the Flask application:
the `X-API-KEY` guard (`check_api_key`), the symbol-list resolution used by
both data endpoints, the retrying upstream fetch (`fetch_binance_24hr`), the
per-symbol aggregation (`collect_binance_usdt_prices`) and the two output
projections (`live_prices` JSON endpoint and `export_csv`).

Python values that can appear in the relevant dictionaries are modelled by
`PyVal` (None, an int, or a string), dictionaries by association lists in
insertion order, and the upstream HTTP call by an injected function
`Nat → Except String Dict` giving the outcome of each attempt: `Except.error`
is a raised exception (network error, bad status, parse failure), `Except.ok`
is a parsed JSON body.
-/

namespace KriptoApi

/-- A Python value as it appears in the dictionaries handled by the app:
`None`, an integer (timestamps), or a string (prices, error messages). -/
inductive PyVal where
  | none : PyVal
  | int : Int → PyVal
  | str : String → PyVal
  deriving DecidableEq, Repr

/-- A Python dict with string keys, in insertion order. -/
abbrev Dict := List (String × PyVal)

/-- First-match lookup, the semantics of indexing a Python dict
(Python dicts have unique keys, so first-match is exact). -/
def dLookup {α : Type} : List (String × α) → String → Option α
  | [], _ => Option.none
  | p :: ps, k => if p.1 == k then some p.2 else dLookup ps k

/-- `k in d` for a Python dict. -/
def dHasKey {α : Type} : List (String × α) → String → Bool
  | [], _ => false
  | p :: ps, k => p.1 == k || dHasKey ps k

/-- Python `d.get(k)`: the value at `k`, or `None` when absent. -/
def pyGet (d : Dict) (k : String) : PyVal :=
  (dLookup d k).getD PyVal.none

/-- Python `d.get(k, default)`. -/
def pyGetD (d : Dict) (k : String) (v : PyVal) : PyVal :=
  (dLookup d k).getD v

/-- Python truthiness for the modelled values. -/
def truthy : PyVal → Bool
  | PyVal.none => false
  | PyVal.int n => n != 0
  | PyVal.str s => s != ""

/-- Python `a or b`: `a` when truthy, else `b`. -/
def pyOr (a b : PyVal) : PyVal :=
  if truthy a then a else b

/-- Python `str.strip()`: drop leading and trailing whitespace. -/
def pyStrip (s : String) : String :=
  String.mk (((s.data.dropWhile Char.isWhitespace).reverse.dropWhile Char.isWhitespace).reverse)

/-- Worker for `pySplitComma`, accumulating the current piece reversed. -/
def pySplitCommaAux : List Char → List Char → List (List Char)
  | [], cur => [cur.reverse]
  | c :: cs, cur =>
    if c = ',' then cur.reverse :: pySplitCommaAux cs []
    else pySplitCommaAux cs (c :: cur)

/-- Python `s.split(",")` (keeps empty pieces; `"".split(",") == [""]`). -/
def pySplitComma (s : String) : List String :=
  (pySplitCommaAux s.data []).map String.mk

/-- Python `str.upper()` for the ASCII symbols handled here. -/
def pyUpper (s : String) : String :=
  String.mk (s.data.map Char.toUpper)

/-- `DEFAULT_SYMBOLS` from app.py. -/
def DEFAULT_SYMBOLS : List String :=
  ["BTCUSDT", "ETHUSDT", "SOLUSDT", "DOGEUSDT", "XRPUSDT"]

/-- The symbol-resolution step shared verbatim by `live_prices` and
`export_csv` in app.py:
`[s.strip().upper() for s in q.split(",") if s.strip()]` when `q.strip()`
is truthy, else a copy of `DEFAULT_SYMBOLS`. -/
def resolve_symbols (q : String) : List String :=
  if pyStrip q ≠ "" then
    ((pySplitComma q).filter (fun s => pyStrip s ≠ "")).map (fun s => pyUpper (pyStrip s))
  else DEFAULT_SYMBOLS

/-- The retry loop of `fetch_binance_24hr`: fuel counts remaining attempts,
`i` is the index of the next attempt, `lastErr` the message of the last
raised exception. Returns the resulting dict together with the number of
attempts that were issued. -/
def fetchGo (attempt : Nat → Except String Dict) :
    Nat → Nat → Option String → Dict × Nat
  | 0, i, lastErr => ([("error", PyVal.str (lastErr.getD "unknown error"))], i)
  | n + 1, i, _lastErr =>
    match attempt i with
    | Except.ok d => (d, i + 1)
    | Except.error e => fetchGo attempt n (i + 1) (some e)

/-- `fetch_binance_24hr` instrumented with the number of attempts issued.
The loop is `for attempt in range(retries + 1)`. -/
def fetchPair (attempt : Nat → Except String Dict) (retries : Nat) : Dict × Nat :=
  fetchGo attempt (retries + 1) 0 Option.none

/-- `fetch_binance_24hr(symbol, timeout, retries)` from app.py, with the HTTP
attempt injected. On the first attempt that returns a body it returns that
body; when all `retries + 1` attempts raise it returns
`{"error": str(last_err)}`. -/
def fetch_binance_24hr (attempt : Nat → Except String Dict) (retries : Nat) : Dict :=
  (fetchPair attempt retries).1

/-- The per-symbol normalisation inside `collect_binance_usdt_prices`:
`{"usdt.p": data["lastPrice"], "ts": data.get("closeTime") or data.get("openTime")}`
when `"lastPrice" in data`, else
`{"error": data.get("error", "no lastPrice"), "usdt.p": None}`. -/
def normalize_entry (data : Dict) : Dict :=
  if dHasKey data "lastPrice" then
    [("usdt.p", pyGet data "lastPrice"),
     ("ts", pyOr (pyGet data "closeTime") (pyGet data "openTime"))]
  else
    [("error", pyGetD data "error" (PyVal.str "no lastPrice")),
     ("usdt.p", PyVal.none)]

/-- The aggregated response: a Python dict from symbol to entry dict. -/
abbrev PriceMap := List (String × Dict)

/-- Python dict assignment `out[k] = v`: replace the value at `k` in place
when the key exists (keys are unique, so the first hit is the only one),
append `(k, v)` otherwise. -/
def dInsert : PriceMap → String → Dict → PriceMap
  | [], k, v => [(k, v)]
  | p :: ps, k, v => if p.1 == k then (k, v) :: ps else p :: dInsert ps k v

/-- `collect_binance_usdt_prices(symbols)` from app.py, with the per-symbol
attempt behaviour injected (`attempt sym i` is the outcome of attempt `i`
for `sym`) and the retry count a parameter (app.py uses the default 2). -/
def collect_binance_usdt_prices (attempt : String → Nat → Except String Dict)
    (retries : Nat) (symbols : List String) : PriceMap :=
  symbols.foldl
    (fun out sym =>
      dInsert out sym (normalize_entry (fetch_binance_24hr (attempt sym) retries)))
    []

/-- The escalation test in `live_prices`:
`all(v.get("usdt.p") is None for v in prices.values())`. -/
def all_prices_null (prices : PriceMap) : Bool :=
  prices.all (fun p => pyGet p.2 "usdt.p" == PyVal.none)

/-- Body of a `/live/prices` response: the plain mapping, or the
`{"error": ..., "details": ...}` envelope. -/
inductive LiveBody where
  | ok (prices : PriceMap) : LiveBody
  | errorEnvelope (msg : String) (details : PriceMap) : LiveBody
  deriving DecidableEq, Repr

/-- The `/live/prices` handler from app.py after the auth guard: resolve the
symbols from the `symbols` query string, aggregate, and return
`502, {"error": "Binance data unavailable", "details": prices}` when every
value has a null `usdt.p`, else `200, prices`. -/
def live_prices (attempt : String → Nat → Except String Dict) (retries : Nat)
    (q : String) : Nat × LiveBody :=
  let symbols := resolve_symbols q
  let prices := collect_binance_usdt_prices attempt retries symbols
  if all_prices_null prices then
    (502, LiveBody.errorEnvelope "Binance data unavailable" prices)
  else (200, LiveBody.ok prices)

/-- `csv.writer` rendering of one cell: `None` becomes the empty cell. -/
def csv_cell : PyVal → String
  | PyVal.none => ""
  | PyVal.int n => toString n
  | PyVal.str s => s

/-- The `/export/csv` handler from app.py after the auth guard: same symbol
resolution and aggregation, then a header row and one row
`[sym, row.get("usdt.p"), row.get("ts")]` per requested symbol, returned
with the implicit Flask success status 200. -/
def export_csv (attempt : String → Nat → Except String Dict) (retries : Nat)
    (q : String) : Nat × List (List String) :=
  let symbols := resolve_symbols q
  let prices := collect_binance_usdt_prices attempt retries symbols
  (200, ["symbol", "usdt.p", "ts"] ::
    symbols.map (fun sym =>
      let row := (dLookup prices sym).getD []
      [sym, csv_cell (pyGet row "usdt.p"), csv_cell (pyGet row "ts")]))

/-- `API_KEY = os.getenv("API_KEY", "onur123")` default. -/
def API_KEY : String := "onur123"

/-- `DOCS_ENDPOINTS` from app.py: the only endpoints exempt from the key. -/
def DOCS_ENDPOINTS : List String := ["apidocs", "apispec"]

/-- Flask's routing table for the app: maps a request path to
`request.endpoint or ""` as seen by the before-request hook. -/
def request_endpoint : String → String
  | "/health" => "health"
  | "/" => "index"
  | "/live/prices" => "live_prices"
  | "/export/csv" => "export_csv"
  | "/apidocs/" => "apidocs"
  | "/apispec.json" => "apispec"
  | _ => ""

/-- `check_api_key` from app.py: `None` means the request proceeds; a denial
is `401, {"error": "Unauthorized"}`. `header` is
`request.headers.get("X-API-KEY")` (`Option.none` when the header is
absent); `apiKey` is the configured secret. -/
def check_api_key (endpoint : String) (header : Option String) (apiKey : String) :
    Option (Nat × Dict) :=
  if endpoint ∈ DOCS_ENDPOINTS then Option.none
  else if header ≠ some apiKey then some (401, [("error", PyVal.str "Unauthorized")])
  else Option.none

/-! ### Association-list (Python dict) lemmas -/

/-- A key that looks up successfully is present. -/
theorem dHasKey_of_dLookup {α : Type} (d : List (String × α)) (k : String) (v : α)
    (h : dLookup d k = some v) : dHasKey d k = true := by
  induction d with
  | nil => simp [dLookup] at h
  | cons p ps ih =>
    by_cases hpk : (p.1 == k) = true
    · simp [dHasKey, hpk]
    · simp only [dLookup] at h
      rw [if_neg hpk] at h
      simp [dHasKey, hpk, ih h]

/-- A present key looks up to some value. -/
theorem dLookup_isSome_of_dHasKey {α : Type} (d : List (String × α)) (k : String)
    (h : dHasKey d k = true) : ∃ v, dLookup d k = some v := by
  induction d with
  | nil => simp [dHasKey] at h
  | cons p ps ih =>
    by_cases hpk : (p.1 == k) = true
    · exact ⟨p.2, by simp [dLookup, hpk]⟩
    · simp only [dHasKey, Bool.or_eq_true] at h
      rcases h with h | h
      · exact absurd h hpk
      · obtain ⟨v, hv⟩ := ih h
        refine ⟨v, ?_⟩
        simp only [dLookup]
        rw [if_neg hpk]
        exact hv

/-- After `out[k] = v`, looking up `k` yields `v`. -/
theorem dLookup_dInsert_self (out : PriceMap) (k : String) (v : Dict) :
    dLookup (dInsert out k v) k = some v := by
  induction out with
  | nil => simp [dInsert, dLookup]
  | cons p ps ih =>
    by_cases hpk : (p.1 == k) = true
    · simp [dInsert, hpk, dLookup]
    · simp only [dInsert]
      rw [if_neg hpk]
      simp only [dLookup]
      rw [if_neg hpk]
      exact ih

/-- Key membership after a Python dict assignment. -/
theorem dHasKey_dInsert_iff (out : PriceMap) (k : String) (v : Dict) (s : String) :
    dHasKey (dInsert out k v) s = true ↔ (dHasKey out s = true ∨ k = s) := by
  induction out with
  | nil => simp [dInsert, dHasKey]
  | cons p ps ih =>
    obtain ⟨p1, p2⟩ := p
    by_cases hpk : (p1 == k) = true
    · have hp : p1 = k := by simpa using hpk
      subst hp
      have hins : dInsert ((p1, p2) :: ps) p1 v = (p1, v) :: ps := by
        simp [dInsert]
      rw [hins]
      simp only [dHasKey, Bool.or_eq_true, beq_iff_eq]
      tauto
    · simp only [dInsert]
      rw [if_neg hpk]
      simp only [dHasKey, Bool.or_eq_true, beq_iff_eq, ih]
      tauto

/-- Assigning a fresh key appends it to the key sequence. -/
theorem keys_dInsert_of_not_mem (out : PriceMap) (k : String) (v : Dict)
    (h : dHasKey out k = false) :
    (dInsert out k v).map Prod.fst = out.map Prod.fst ++ [k] := by
  induction out with
  | nil => simp [dInsert]
  | cons p ps ih =>
    simp only [dHasKey, Bool.or_eq_false_iff] at h
    obtain ⟨h1, h2⟩ := h
    simp only [dInsert]
    rw [if_neg (by simp [h1])]
    simp [ih h2]

/-- The aggregation fold over fresh keys appends the symbols in order. -/
theorem foldl_dInsert_keys (f : String → Dict) (symbols : List String) :
    ∀ (out : PriceMap), symbols.Nodup →
      (∀ s ∈ symbols, dHasKey out s = false) →
      (symbols.foldl (fun acc sym => dInsert acc sym (f sym)) out).map Prod.fst
        = out.map Prod.fst ++ symbols := by
  induction symbols with
  | nil => intro out _ _; simp
  | cons sym ss ih =>
    intro out hnd hout
    have hnew : dHasKey out sym = false := hout sym (by simp)
    have hstep := keys_dInsert_of_not_mem out sym (f sym) hnew
    have hrest : ∀ s ∈ ss, dHasKey (dInsert out sym (f sym)) s = false := by
      intro s hs
      have hne : sym ≠ s := by
        intro hEq
        subst hEq
        exact (List.nodup_cons.mp hnd).1 hs
      have hnot : ¬ dHasKey (dInsert out sym (f sym)) s = true := by
        rw [dHasKey_dInsert_iff]
        push_neg
        exact ⟨by simp [hout s (List.mem_cons_of_mem _ hs)], hne⟩
      simpa using hnot
    have hrec := ih (dInsert out sym (f sym)) (List.nodup_cons.mp hnd).2 hrest
    simp [List.foldl_cons, hrec, hstep]

/-- The aggregation fold makes every requested symbol a present key. -/
theorem dHasKey_foldl_dInsert (f : String → Dict) (symbols : List String) :
    ∀ (out : PriceMap) (sym : String), (sym ∈ symbols ∨ dHasKey out sym = true) →
      dHasKey (symbols.foldl (fun acc s => dInsert acc s (f s)) out) sym = true := by
  induction symbols with
  | nil =>
    intro out sym h
    rcases h with h | h
    · simp at h
    · simpa using h
  | cons s ss ih =>
    intro out sym h
    apply ih
    rcases h with h | h
    · rcases List.mem_cons.mp h with hEq | hMem
      · right
        rw [dHasKey_dInsert_iff]
        right
        exact hEq.symm
      · left
        exact hMem
    · right
      rw [dHasKey_dInsert_iff]
      left
      exact h

/-! ### Claim theorems: SymbolResolver, CSV shape, edge cases -/

/-- C5: the empty (or whitespace-only) query resolves to the default list;
any other raw string is split on commas, trimmed, empties dropped, and the
rest uppercased in original order; `"btcusdt, ethusdt ,, "` resolves to
`["BTCUSDT", "ETHUSDT"]`. -/
theorem C5_symbol_resolver :
    resolve_symbols "" = DEFAULT_SYMBOLS ∧
    (∀ q, pyStrip q = "" → resolve_symbols q = DEFAULT_SYMBOLS) ∧
    (∀ q, pyStrip q ≠ "" → resolve_symbols q =
      ((pySplitComma q).filter (fun s => pyStrip s ≠ "")).map (fun s => pyUpper (pyStrip s))) ∧
    resolve_symbols "btcusdt, ethusdt ,, " = ["BTCUSDT", "ETHUSDT"] ∧
    DEFAULT_SYMBOLS = ["BTCUSDT", "ETHUSDT", "SOLUSDT", "DOGEUSDT", "XRPUSDT"] := by
  refine ⟨by decide, ?_, ?_, by decide, rfl⟩
  · intro q hq
    simp [resolve_symbols, hq]
  · intro q hq
    simp [resolve_symbols, hq]

/-- C5 witness: the resolver evaluated on concrete inputs through the claim
theorem. -/
theorem C5_symbol_resolver_witness :
    resolve_symbols " " = DEFAULT_SYMBOLS ∧
    resolve_symbols "a,b" =
      ((pySplitComma "a,b").filter (fun s => pyStrip s ≠ "")).map (fun s => pyUpper (pyStrip s)) :=
  ⟨C5_symbol_resolver.2.1 " " (by decide), C5_symbol_resolver.2.2.1 "a,b" (by decide)⟩

/-- C9: a non-whitespace query of only empty comma pieces resolves to the
empty list (not the default), `/live/prices` then escalates vacuously to 502
with empty details, and `/export/csv` returns 200 with only the header. -/
theorem C9_empty_pieces (attempt : String → Nat → Except String Dict) (retries : Nat)
    (q : String) (h1 : pyStrip q ≠ "") (h2 : ∀ s ∈ pySplitComma q, pyStrip s = "") :
    resolve_symbols q = [] ∧
    live_prices attempt retries q =
      (502, LiveBody.errorEnvelope "Binance data unavailable" []) ∧
    export_csv attempt retries q = (200, [["symbol", "usdt.p", "ts"]]) := by
  have hres : resolve_symbols q = [] := by
    simp [resolve_symbols, h1, List.map_eq_nil_iff, List.filter_eq_nil_iff]
    intro s hs
    simp [h2 s hs]
  refine ⟨hres, ?_, ?_⟩
  · simp [live_prices, hres, collect_binance_usdt_prices, all_prices_null]
  · simp [export_csv, hres, collect_binance_usdt_prices]

/-- C9 witness: the `",,,"` query evaluated through the claim theorem. -/
theorem C9_empty_pieces_witness :
    resolve_symbols ",,," = [] ∧
    live_prices (fun _ _ => Except.error "down") 2 ",,," =
      (502, LiveBody.errorEnvelope "Binance data unavailable" []) ∧
    export_csv (fun _ _ => Except.error "down") 2 ",,," =
      (200, [["symbol", "usdt.p", "ts"]]) :=
  C9_empty_pieces (fun _ _ => Except.error "down") 2 ",,," (by decide) (by decide)

/-- C10: a body whose `lastPrice` is null yields an entry with a null
`usdt.p` and no `error` key, and the `/live/prices` escalation test counts
that entry as failed. -/
theorem C10_null_last_price (data : Dict) (sym : String)
    (h : dLookup data "lastPrice" = some PyVal.none) :
    pyGet (normalize_entry data) "usdt.p" = PyVal.none ∧
    dHasKey (normalize_entry data) "error" = false ∧
    all_prices_null [(sym, normalize_entry data)] = true := by
  have hk : dHasKey data "lastPrice" = true := dHasKey_of_dLookup data "lastPrice" PyVal.none h
  have hentry : normalize_entry data =
      [("usdt.p", pyGet data "lastPrice"),
       ("ts", pyOr (pyGet data "closeTime") (pyGet data "openTime"))] := by
    simp [normalize_entry, hk]
  have hnull : pyGet data "lastPrice" = PyVal.none := by
    simp [pyGet, h]
  rw [hentry, hnull]
  refine ⟨by simp [pyGet, dLookup], by simp [dHasKey], ?_⟩
  simp [all_prices_null, pyGet, dLookup]

/-- C10 witness: the claim theorem applied to the concrete body
`{"lastPrice": null}`. -/
theorem C10_null_last_price_witness :
    pyGet (normalize_entry [("lastPrice", PyVal.none)]) "usdt.p" = PyVal.none ∧
    dHasKey (normalize_entry [("lastPrice", PyVal.none)]) "error" = false ∧
    all_prices_null [("BTCUSDT", normalize_entry [("lastPrice", PyVal.none)])] = true :=
  C10_null_last_price [("lastPrice", PyVal.none)] "BTCUSDT" (by decide)

/-- C4: the CSV export always answers 200 with a header row followed by
exactly one row per requested symbol in request order (`N + 1` rows), each
row holding the symbol and the (possibly empty) price and timestamp cells;
a null cell renders as the empty string. -/
theorem C4_csv_shape (attempt : String → Nat → Except String Dict) (retries : Nat)
    (q : String) :
    (export_csv attempt retries q).1 = 200 ∧
    (export_csv attempt retries q).2.length = (resolve_symbols q).length + 1 ∧
    (export_csv attempt retries q).2.head? = some ["symbol", "usdt.p", "ts"] ∧
    (export_csv attempt retries q).2.drop 1 =
      (resolve_symbols q).map (fun sym =>
        [sym,
         csv_cell (pyGet ((dLookup (collect_binance_usdt_prices attempt retries
             (resolve_symbols q)) sym).getD []) "usdt.p"),
         csv_cell (pyGet ((dLookup (collect_binance_usdt_prices attempt retries
             (resolve_symbols q)) sym).getD []) "ts")]) ∧
    csv_cell PyVal.none = "" := by
  refine ⟨rfl, ?_, rfl, rfl, rfl⟩
  simp [export_csv]

/-! ### Retry-loop lemmas -/

/-- When the attempt at index `i + n` raises and all earlier attempts from
`i` raise as well, the loop exhausts its `n + 1` attempts and returns the
error dict built from the last message. -/
theorem fetchGo_all_fail (attempt : Nat → Except String Dict) :
    ∀ (n i : Nat) (le : Option String) (e : String),
      attempt (i + n) = Except.error e →
      (∀ k, k < n → ∃ m, attempt (i + k) = Except.error m) →
      fetchGo attempt (n + 1) i le = ([("error", PyVal.str e)], i + n + 1) := by
  intro n
  induction n with
  | zero =>
    intro i le e hlast _
    simp only [Nat.add_zero] at hlast
    simp [fetchGo, hlast]
  | succ n ih =>
    intro i le e hlast hall
    obtain ⟨m, hm⟩ := hall 0 (Nat.succ_pos n)
    simp only [Nat.add_zero] at hm
    have hlast' : attempt (i + 1 + n) = Except.error e := by
      rw [show i + 1 + n = i + (n + 1) from by omega]
      exact hlast
    have hall' : ∀ k, k < n → ∃ m2, attempt (i + 1 + k) = Except.error m2 := by
      intro k hk
      obtain ⟨m2, hm2⟩ := hall (k + 1) (by omega)
      exact ⟨m2, by rw [show i + 1 + k = i + (k + 1) from by omega]; exact hm2⟩
    have hres := ih (i + 1) (some m) e hlast' hall'
    rw [show i + 1 + n + 1 = i + (n + 1) + 1 from by omega] at hres
    simpa [fetchGo, hm] using hres

/-- When the attempt at index `i + j` succeeds and all earlier attempts from
`i` raise, the loop returns that body after exactly `j + 1` attempts. -/
theorem fetchGo_first_ok (attempt : Nat → Except String Dict) :
    ∀ (n i : Nat) (le : Option String) (j : Nat) (d : Dict),
      j < n → attempt (i + j) = Except.ok d →
      (∀ k, k < j → ∃ m, attempt (i + k) = Except.error m) →
      fetchGo attempt n i le = (d, i + j + 1) := by
  intro n
  induction n with
  | zero =>
    intro i le j d hj
    exact absurd hj (by omega)
  | succ n ih =>
    intro i le j d hj hok hall
    cases j with
    | zero =>
      simp only [Nat.add_zero] at hok
      simp [fetchGo, hok]
    | succ j =>
      obtain ⟨m, hm⟩ := hall 0 (Nat.succ_pos j)
      simp only [Nat.add_zero] at hm
      have hok' : attempt (i + 1 + j) = Except.ok d := by
        rw [show i + 1 + j = i + (j + 1) from by omega]
        exact hok
      have hall' : ∀ k, k < j → ∃ m2, attempt (i + 1 + k) = Except.error m2 := by
        intro k hk
        obtain ⟨m2, hm2⟩ := hall (k + 1) (by omega)
        exact ⟨m2, by rw [show i + 1 + k = i + (k + 1) from by omega]; exact hm2⟩
      have hres := ih (i + 1) (some m) j d (by omega) hok' hall'
      rw [show i + 1 + j + 1 = i + (j + 1) + 1 from by omega] at hres
      simpa [fetchGo, hm] using hres

/-- Every run of the loop ends in one of exactly two ways: some attempt's
body is returned as is (and the attempt counter stops right there), or the
`{"error": ...}` dict is returned after all `n` attempts. -/
theorem fetchGo_ok_or_error (attempt : Nat → Except String Dict) :
    ∀ (n i : Nat) (le : Option String),
      (∃ j, i ≤ j ∧ j < i + n ∧ attempt j = Except.ok (fetchGo attempt n i le).1 ∧
        (fetchGo attempt n i le).2 = j + 1) ∨
      (dHasKey (fetchGo attempt n i le).1 "error" = true ∧
        (fetchGo attempt n i le).2 = i + n) := by
  intro n
  induction n with
  | zero =>
    intro i le
    right
    simp [fetchGo, dHasKey]
  | succ n ih =>
    intro i le
    cases hA : attempt i with
    | ok d =>
      left
      exact ⟨i, le_refl i, by omega, by simp [fetchGo, hA], by simp [fetchGo, hA]⟩
    | error e =>
      rcases ih (i + 1) (some e) with ⟨j, h1, h2, h3, h4⟩ | ⟨h1, h2⟩
      · left
        refine ⟨j, by omega, by omega, ?_, ?_⟩
        · simpa [fetchGo, hA] using h3
        · simpa [fetchGo, hA] using h4
      · right
        refine ⟨by simpa [fetchGo, hA] using h1, ?_⟩
        have : (fetchGo attempt (n + 1) i le).2 = (fetchGo attempt n (i + 1) (some e)).2 := by
          simp [fetchGo, hA]
        omega

/-! ### Claim theorems: PriceFetcher and Aggregator -/

/-- C3: when every attempt raises, `fetch_binance_24hr` issues exactly
`retries + 1` attempts and returns the error dict carrying the last
observed message (which the aggregator folds into a failure entry); when
attempt `j` is the first to succeed it returns that body after exactly
`j + 1` attempts, issuing no further ones. -/
theorem C3_price_fetcher_retries (attempt : Nat → Except String Dict) (retries : Nat) :
    (∀ e, attempt retries = Except.error e →
      (∀ k, k < retries → ∃ m, attempt k = Except.error m) →
      fetchPair attempt retries = ([("error", PyVal.str e)], retries + 1) ∧
      normalize_entry (fetch_binance_24hr attempt retries) =
        [("error", PyVal.str e), ("usdt.p", PyVal.none)]) ∧
    (∀ j d, j ≤ retries → attempt j = Except.ok d →
      (∀ k, k < j → ∃ m, attempt k = Except.error m) →
      fetchPair attempt retries = (d, j + 1)) := by
  constructor
  · intro e hlast hall
    have h := fetchGo_all_fail attempt retries 0 Option.none e
      (by simpa using hlast) (by intro k hk; simpa using hall k hk)
    have h0 : fetchPair attempt retries = ([("error", PyVal.str e)], retries + 1) := by
      simpa [fetchPair] using h
    refine ⟨h0, ?_⟩
    have hfb : fetch_binance_24hr attempt retries = [("error", PyVal.str e)] := by
      simp [fetch_binance_24hr, h0]
    rw [hfb]
    simp [normalize_entry, dHasKey, pyGetD, dLookup]
  · intro j d hj hok hall
    have h := fetchGo_first_ok attempt (retries + 1) 0 Option.none j d (by omega)
      (by simpa using hok) (by intro k hk; simpa using hall k hk)
    simpa [fetchPair] using h

/-- C3 witness: the claim theorem evaluated on a behaviour that always
raises (3 attempts, last message kept) and on one that succeeds on the
second attempt (2 attempts, body returned). -/
theorem C3_price_fetcher_retries_witness :
    fetchPair (fun _ => Except.error "boom") 2 = ([("error", PyVal.str "boom")], 3) ∧
    fetchPair (fun i => if i = 1 then Except.ok [("lastPrice", PyVal.str "9")]
      else Except.error "down") 2 = ([("lastPrice", PyVal.str "9")], 2) :=
  ⟨((C3_price_fetcher_retries (fun _ => Except.error "boom") 2).1 "boom" rfl
      (fun k _ => ⟨"boom", rfl⟩)).1,
   (C3_price_fetcher_retries (fun i => if i = 1 then Except.ok [("lastPrice", PyVal.str "9")]
      else Except.error "down") 2).2 1 [("lastPrice", PyVal.str "9")] (by omega) rfl
      (fun k hk => ⟨"down", by have hk0 : k = 0 := by omega
                               subst hk0
                               rfl⟩)⟩

/-- C8: no injected failure escapes as an exception: the fetcher always
returns a dict — either some attempt's body unchanged, with the attempt
counter stopped there, or an `{"error": ...}` dict after all attempts — and
the aggregator gives every requested symbol an entry. -/
theorem C8_errors_become_data (attempt : Nat → Except String Dict) (retries : Nat)
    (fa : String → Nat → Except String Dict) (symbols : List String) (sym : String)
    (hmem : sym ∈ symbols) :
    (fetchPair attempt retries).2 ≤ retries + 1 ∧
    (attempt ((fetchPair attempt retries).2 - 1) =
        Except.ok (fetch_binance_24hr attempt retries) ∨
      dHasKey (fetch_binance_24hr attempt retries) "error" = true) ∧
    dHasKey (collect_binance_usdt_prices fa retries symbols) sym = true := by
  refine ⟨?_, ?_, ?_⟩
  · rcases fetchGo_ok_or_error attempt (retries + 1) 0 Option.none with
      ⟨j, _, h2, _, h4⟩ | ⟨_, h2⟩
    · have : (fetchPair attempt retries).2 = j + 1 := h4
      omega
    · have : (fetchPair attempt retries).2 = 0 + (retries + 1) := h2
      omega
  · rcases fetchGo_ok_or_error attempt (retries + 1) 0 Option.none with
      ⟨j, _, _, h3, h4⟩ | ⟨h1, _⟩
    · left
      have hj : (fetchPair attempt retries).2 - 1 = j := by
        have : (fetchPair attempt retries).2 = j + 1 := h4
        omega
      rw [hj]
      exact h3
    · right
      exact h1
  · have hk := dHasKey_foldl_dInsert
      (fun s => normalize_entry (fetch_binance_24hr (fa s) retries)) symbols [] sym
      (Or.inl hmem)
    simpa [collect_binance_usdt_prices] using hk

/-- C8 witness: the claim theorem evaluated with a behaviour that raises on
every attempt for the single requested symbol. -/
theorem C8_errors_become_data_witness :
    (fetchPair (fun _ => Except.error "boom") 2).2 ≤ 3 ∧
    ((fun _ : Nat => (Except.error "boom" : Except String Dict))
        ((fetchPair (fun _ => Except.error "boom") 2).2 - 1) =
        Except.ok (fetch_binance_24hr (fun _ => Except.error "boom") 2) ∨
      dHasKey (fetch_binance_24hr (fun _ => Except.error "boom") 2) "error" = true) ∧
    dHasKey (collect_binance_usdt_prices (fun _ _ => Except.error "boom") 2 ["BTCUSDT"])
      "BTCUSDT" = true :=
  C8_errors_become_data (fun _ => Except.error "boom") 2 (fun _ _ => Except.error "boom")
    ["BTCUSDT"] "BTCUSDT" (by simp)

/-- C6: for a duplicate-free symbol list the aggregated mapping has exactly
one key per requested symbol, in request order, whatever the injected fetch
outcomes are. -/
theorem C6_aggregator_keys (attempt : String → Nat → Except String Dict) (retries : Nat)
    (symbols : List String) (h : symbols.Nodup) :
    (collect_binance_usdt_prices attempt retries symbols).map Prod.fst = symbols ∧
    (collect_binance_usdt_prices attempt retries symbols).length = symbols.length := by
  have hk := foldl_dInsert_keys
    (fun sym => normalize_entry (fetch_binance_24hr (attempt sym) retries)) symbols [] h
    (by intro s _; simp [dHasKey])
  have hkeys : (collect_binance_usdt_prices attempt retries symbols).map Prod.fst = symbols := by
    simpa [collect_binance_usdt_prices] using hk
  refine ⟨hkeys, ?_⟩
  calc (collect_binance_usdt_prices attempt retries symbols).length
      = ((collect_binance_usdt_prices attempt retries symbols).map Prod.fst).length := by
        simp
    _ = symbols.length := by rw [hkeys]

/-- C6 witness: the claim theorem evaluated on two distinct symbols under
total upstream failure. -/
theorem C6_aggregator_keys_witness :
    (["BTCUSDT", "FAKE"] : List String).Nodup ∧
    (collect_binance_usdt_prices (fun _ _ => Except.error "down") 2
      ["BTCUSDT", "FAKE"]).map Prod.fst = ["BTCUSDT", "FAKE"] :=
  ⟨by decide,
   (C6_aggregator_keys (fun _ _ => Except.error "down") 2 ["BTCUSDT", "FAKE"] (by decide)).1⟩

/-! ### Claim theorems: AuthGuard, 502 escalation, timestamp projection -/

/-- C1 counterexample: contrary to the claim, a keyless GET of `/health`
and of `/` is denied with 401 — only the docs endpoints are exempt from the
key check. -/
theorem C1_counterexample :
    check_api_key (request_endpoint "/health") Option.none API_KEY =
      some (401, [("error", PyVal.str "Unauthorized")]) ∧
    check_api_key (request_endpoint "/") Option.none API_KEY =
      some (401, [("error", PyVal.str "Unauthorized")]) := by
  decide

/-- C1 amended: the guard exempts only the docs endpoints; `/health`, `/`,
`/live/prices` and `/export/csv` are all protected — allowed exactly when
the `X-API-KEY` header equals the configured secret byte-for-byte, denied
with the 401 `{"error": "Unauthorized"}` body when it is absent or
differs. -/
theorem C1_auth_guard (header : Option String) (apiKey : String) :
    (∀ path, path = "/health" ∨ path = "/" ∨ path = "/live/prices" ∨ path = "/export/csv" →
      ((check_api_key (request_endpoint path) header apiKey = Option.none ↔
          header = some apiKey) ∧
        (header ≠ some apiKey →
          check_api_key (request_endpoint path) header apiKey =
            some (401, [("error", PyVal.str "Unauthorized")])))) ∧
    check_api_key (request_endpoint "/apidocs/") header apiKey = Option.none ∧
    check_api_key (request_endpoint "/apispec.json") header apiKey = Option.none := by
  refine ⟨?_, ?_, ?_⟩
  · intro path hp
    have hep : request_endpoint path ∉ DOCS_ENDPOINTS := by
      rcases hp with h | h | h | h <;> subst h <;> decide
    constructor
    · constructor
      · intro hnone
        by_cases hEq : header = some apiKey
        · exact hEq
        · simp [check_api_key, hep, hEq] at hnone
      · intro hEq
        simp [check_api_key, hep, hEq]
    · intro hne
      simp [check_api_key, hep, hne]
  · simp [check_api_key, request_endpoint, DOCS_ENDPOINTS]
  · simp [check_api_key, request_endpoint, DOCS_ENDPOINTS]

/-- C1 witness: the amended theorem evaluated at the configured secret on a
protected path (allowed with the right key, denied without a header). -/
theorem C1_auth_guard_witness :
    check_api_key (request_endpoint "/live/prices") (some "onur123") "onur123" =
      Option.none ∧
    check_api_key (request_endpoint "/health") Option.none "onur123" =
      some (401, [("error", PyVal.str "Unauthorized")]) :=
  ⟨((C1_auth_guard (some "onur123") "onur123").1 "/live/prices"
      (Or.inr (Or.inr (Or.inl rfl)))).1.mpr rfl,
   ((C1_auth_guard Option.none "onur123").1 "/health" (Or.inl rfl)).2 (by decide)⟩

/-- C2 counterexample: a fetch that succeeds with a null `lastPrice` still
yields 502, although its entry has no populated error field — so "502 iff
every FetchResult has a populated error field" fails. -/
theorem C2_counterexample :
    live_prices (fun _ _ => Except.ok [("lastPrice", PyVal.none)]) 2 "BTCUSDT" =
      (502, LiveBody.errorEnvelope "Binance data unavailable"
        [("BTCUSDT", [("usdt.p", PyVal.none), ("ts", PyVal.none)])]) ∧
    dHasKey [("usdt.p", PyVal.none), ("ts", PyVal.none)] "error" = false := by
  decide

/-- C2 amended: `/live/prices` returns the 502 error envelope iff every
entry of the aggregated mapping has a null `usdt.p` value (the code tests
null price, not a populated error field — a success with null `lastPrice`
also counts as failed); it returns 200 with the plain mapping iff some
entry has a non-null price. -/
theorem C2_all_null_escalation (attempt : String → Nat → Except String Dict)
    (retries : Nat) (q : String) :
    (live_prices attempt retries q =
        (502, LiveBody.errorEnvelope "Binance data unavailable"
          (collect_binance_usdt_prices attempt retries (resolve_symbols q))) ↔
      ∀ p ∈ collect_binance_usdt_prices attempt retries (resolve_symbols q),
        pyGet p.2 "usdt.p" = PyVal.none) ∧
    (live_prices attempt retries q =
        (200, LiveBody.ok (collect_binance_usdt_prices attempt retries (resolve_symbols q))) ↔
      ∃ p ∈ collect_binance_usdt_prices attempt retries (resolve_symbols q),
        pyGet p.2 "usdt.p" ≠ PyVal.none) := by
  by_cases h : all_prices_null (collect_binance_usdt_prices attempt retries
      (resolve_symbols q)) = true
  · have hall : ∀ p ∈ collect_binance_usdt_prices attempt retries (resolve_symbols q),
        pyGet p.2 "usdt.p" = PyVal.none := by
      intro p hp
      have := List.all_eq_true.mp h p hp
      simpa using this
    constructor
    · exact ⟨fun _ => hall, fun _ => by simp [live_prices, h]⟩
    · constructor
      · intro hEq
        have : (502 : Nat) = 200 := by
          have h502 : live_prices attempt retries q =
              (502, LiveBody.errorEnvelope "Binance data unavailable"
                (collect_binance_usdt_prices attempt retries (resolve_symbols q))) := by
            simp [live_prices, h]
          rw [h502] at hEq
          exact congrArg Prod.fst hEq
        omega
      · rintro ⟨p, hp, hne⟩
        exact absurd (hall p hp) hne
  · have hne : all_prices_null (collect_binance_usdt_prices attempt retries
        (resolve_symbols q)) = false := by
      simpa using h
    have hex : ∃ p ∈ collect_binance_usdt_prices attempt retries (resolve_symbols q),
        pyGet p.2 "usdt.p" ≠ PyVal.none := by
      have := List.all_eq_false.mp hne
      obtain ⟨p, hp, hnp⟩ := this
      exact ⟨p, hp, by simpa using hnp⟩
    constructor
    · constructor
      · intro hEq
        have h200 : live_prices attempt retries q =
            (200, LiveBody.ok (collect_binance_usdt_prices attempt retries
              (resolve_symbols q))) := by
          simp [live_prices, hne]
        rw [h200] at hEq
        have : (200 : Nat) = 502 := congrArg Prod.fst hEq
        omega
      · intro hall
        obtain ⟨p, hp, hnp⟩ := hex
        exact absurd (hall p hp) hnp
    · exact ⟨fun _ => hex, fun _ => by simp [live_prices, hne]⟩

/-- C2 witness: the amended theorem evaluated on a single-symbol request
whose only fetch raises on every attempt, giving the 502 envelope. -/
theorem C2_all_null_escalation_witness :
    live_prices (fun _ _ => Except.error "down") 2 "BTCUSDT" =
      (502, LiveBody.errorEnvelope "Binance data unavailable"
        (collect_binance_usdt_prices (fun _ _ => Except.error "down") 2
          (resolve_symbols "BTCUSDT"))) :=
  (C2_all_null_escalation (fun _ _ => Except.error "down") 2 "BTCUSDT").1.mpr (by decide)

/-- C7 counterexample: a body whose `closeTime` is present with value `0`
(falsy but not absent) gets its timestamp from `openTime` — so "falling
back to open-time only when close-time is absent" fails. -/
theorem C7_counterexample :
    normalize_entry
        [("lastPrice", PyVal.str "1"), ("closeTime", PyVal.int 0), ("openTime", PyVal.int 5)] =
      [("usdt.p", PyVal.str "1"), ("ts", PyVal.int 5)] ∧
    dLookup
        [("lastPrice", PyVal.str "1"), ("closeTime", PyVal.int 0), ("openTime", PyVal.int 5)]
        "closeTime" = some (PyVal.int 0) := by
  decide

/-- C7 amended: on a successful fetch the price is the `lastPrice` value and
the timestamp is `closeTime or openTime` under Python truthiness: the
`closeTime` value is used when truthy, and the entry falls back to
`openTime` when `closeTime` is absent **or** its value is falsy
(null, 0, empty string). -/
theorem C7_success_projection (data : Dict) (h : dHasKey data "lastPrice" = true) :
    normalize_entry data =
      [("usdt.p", pyGet data "lastPrice"),
       ("ts", pyOr (pyGet data "closeTime") (pyGet data "openTime"))] ∧
    pyGet (normalize_entry data) "usdt.p" = pyGet data "lastPrice" ∧
    (truthy (pyGet data "closeTime") = true →
      pyGet (normalize_entry data) "ts" = pyGet data "closeTime") ∧
    (truthy (pyGet data "closeTime") = false →
      pyGet (normalize_entry data) "ts" = pyGet data "openTime") := by
  have h1 : normalize_entry data =
      [("usdt.p", pyGet data "lastPrice"),
       ("ts", pyOr (pyGet data "closeTime") (pyGet data "openTime"))] := by
    simp [normalize_entry, h]
  refine ⟨h1, ?_, ?_, ?_⟩
  · rw [h1]
    simp [pyGet, dLookup]
  · intro ht
    rw [h1]
    simp only [pyGet] at ht
    simp [pyGet, dLookup, pyOr, ht]
  · intro ht
    rw [h1]
    simp only [pyGet] at ht
    simp [pyGet, dLookup, pyOr, ht]

/-- C7 witness: the amended theorem evaluated on a body with a truthy
`closeTime` (used) and on one with `closeTime` 0 (falls back). -/
theorem C7_success_projection_witness :
    pyGet (normalize_entry
        [("lastPrice", PyVal.str "1"), ("closeTime", PyVal.int 7), ("openTime", PyVal.int 5)])
      "ts" = PyVal.int 7 ∧
    pyGet (normalize_entry
        [("lastPrice", PyVal.str "1"), ("closeTime", PyVal.int 0), ("openTime", PyVal.int 5)])
      "ts" = PyVal.int 5 :=
  ⟨(C7_success_projection
      [("lastPrice", PyVal.str "1"), ("closeTime", PyVal.int 7), ("openTime", PyVal.int 5)]
      (by decide)).2.2.1 (by decide),
   (C7_success_projection
      [("lastPrice", PyVal.str "1"), ("closeTime", PyVal.int 0), ("openTime", PyVal.int 5)]
      (by decide)).2.2.2 (by decide)⟩

end KriptoApi
